import Mathlib

/-!
Shallow embedding of the client-side filtering and derived-statistics logic of
the musiclib-visualiser dashboard (src/web/app.js), together with theorems
checking the natural-language specification against it.

Modelling conventions:
* a JS object field that may be absent is an `Option`;
* JS string truthiness (absent or empty string is falsy) is made explicit at
  each use site, mirroring the source's checks;
* JS number truthiness (absent, 0 or NaN is falsy) is modelled with integers,
  absent as `none` and falsiness as an explicit `= 0` test;
* `new Date(sec * 1000).getFullYear()` is modelled as the UTC civil year of an
  epoch second count (the standard days-to-civil-date conversion);
* the JS object used as a counter dictionary is modelled as an association
  list in insertion order, with `bumpCount` playing the role of
  `counts[k] = (counts[k] || 0) + 1`, and `Array.prototype.sort` as a stable
  merge sort with the comparator translated to a Bool-valued relation.
-/

namespace MLV

/-- One record of files.json, per the data model: every field optional. -/
structure MusicFile where
  genre : Option String := none
  artist : Option String := none
  duration : Option Int := none
  date : Option String := none
  mtime_epoch : Option Int := none
deriving DecidableEq

/-- Characters the genre field is split on, from the regex [,;/|]+ in
app.js line 11 (a run of delimiters yields empty pieces that the
non-emptiness filter below removes, so per-character splitting agrees). -/
def isGenreDelim (c : Char) : Bool :=
  c = ',' || c = ';' || c = '/' || c = '|'

/-- Split of a character list at every character satisfying p, keeping empty
pieces, as String.prototype.split does per separator occurrence. -/
def splitChars (p : Char → Bool) : List Char → List Char → List String
  | [], acc => [String.mk acc.reverse]
  | c :: cs, acc =>
    if p c then String.mk acc.reverse :: splitChars p cs []
    else splitChars p cs (c :: acc)

/-- Whitespace stripped by String.prototype.trim, restricted to the ASCII
whitespace characters that can occur in tag text. -/
def isJsSpace (c : Char) : Bool :=
  c = ' ' || c = '\t' || c = '\n' || c = '\r' || c = '\x0b' || c = '\x0c'

/-- Leading and trailing whitespace removed, String.prototype.trim. -/
def jsTrim (s : String) : String :=
  String.mk (((s.data.dropWhile isJsSpace).reverse.dropWhile isJsSpace).reverse)

/-- Lower-casing per character, String.prototype.toLowerCase (ASCII range). -/
def jsToLower (s : String) : String :=
  String.mk (s.data.map Char.toLower)

/-- Trimmed, non-empty pieces of a genre field:
s.split(/[,;/|]+/).map(s=>s.trim()).filter(Boolean) in app.js. -/
def genreParts (s : String) : List String :=
  ((splitChars isGenreDelim s.data []).map jsTrim).filter (fun p => !(p = ""))

/-- Embedding of fileHasGenre (app.js lines 9-13); the file argument itself is
always present in this embedding, so only the genre-field truthiness test of
the source remains. -/
def fileHasGenre (f : MusicFile) (genre : String) : Bool :=
  match f.genre with
  | none => false
  | some g =>
    if g = "" then false
    else (genreParts g).any (fun p => jsToLower p = jsToLower genre)

/-- Leftmost 4-digit sequence starting with 19 or 20 in a character list:
the regex (19|20)\d{2} of app.js line 18, returned as its numeric value
(the +m[0] of line 19). -/
def yearScan : List Char → Option Nat
  | [] => none
  | c1 :: rest =>
    match rest with
    | c2 :: c3 :: c4 :: _ =>
      if ((c1 = '1' && c2 = '9') || (c1 = '2' && c2 = '0'))
          && c3.isDigit && c4.isDigit then
        some ((c1.toNat - 48) * 1000 + (c2.toNat - 48) * 100
          + (c3.toNat - 48) * 10 + (c4.toNat - 48))
      else yearScan rest
    | _ => none

/-- UTC civil year of an epoch expressed in whole seconds (the behaviour of
new Date(sec*1000).getFullYear() at UTC), by the standard days-to-civil-date
conversion on floored day counts. -/
def epochYear (sec : Int) : Int :=
  let days := Int.fdiv sec 86400
  let z := days + 719468
  let era := Int.fdiv z 146097
  let doe := z - era * 146097
  let yoe := Int.fdiv (doe - Int.fdiv doe 1460 + Int.fdiv doe 36524 - Int.fdiv doe 146096) 365
  let y := yoe + era * 400
  let doy := doe - (365 * yoe + Int.fdiv yoe 4 - Int.fdiv yoe 100)
  let mp := Int.fdiv (5 * doy + 2) 153
  let m := if mp < 10 then mp + 3 else mp - 9
  if m ≤ 2 then y + 1 else y

/-- Embedding of getYearFromFile (app.js lines 15-23): a truthy date field is
scanned first; otherwise a truthy (present, nonzero) mtime_epoch gives the
calendar year; otherwise null. -/
def getYearFromFile (f : MusicFile) : Option Int :=
  let fromDate : Option Int :=
    match f.date with
    | some d => if d = "" then none else (yearScan d.data).map (fun y => (y : Int))
    | none => none
  match fromDate with
  | some y => some y
  | none =>
    match f.mtime_epoch with
    | some e => if e = 0 then none else some (epochYear e)
    | none => none

/-- Predicate of the default (no-filter) branch of getFilteredFiles
(app.js lines 29-33): genre field truthy and no split part equal to
"unknown" case-insensitively. -/
def defaultKeep (f : MusicFile) : Bool :=
  match f.genre with
  | none => false
  | some g =>
    if g = "" then false
    else !((genreParts g).any (fun p => jsToLower p = "unknown"))

/-- Embedding of getFilteredFiles (app.js lines 25-36). The selection is an
Option String: none models a null/undefined selection, some "" the empty
string; both are falsy in the source's test (!genre || genre === a sentinel),
hence routed to the default branch. -/
def getFilteredFiles (files : Option (List MusicFile)) (genre : Option String) :
    List MusicFile :=
  match files with
  | none => []
  | some fs =>
    match genre with
    | none => fs.filter defaultKeep
    | some g =>
      if g = "" ∨ g = "__all__" then fs.filter defaultKeep
      else fs.filter (fun f => fileHasGenre f g)

/-- Duration-bin label of app.js line 103:
d < 120 then <2m, d < 240 then 2-4m, d < 360 then 4-6m, d < 720 then 6-12m,
otherwise 12m+. -/
def durationLabel (d : Int) : String :=
  if d < 120 then "<2m"
  else if d < 240 then "2-4m"
  else if d < 360 then "4-6m"
  else if d < 720 then "6-12m"
  else "12m+"

/-- Counter-dictionary increment, counts[k] = (counts[k] || 0) + 1 on a JS
object modelled as an association list in insertion order. -/
def bumpCount {α : Type} [DecidableEq α] (counts : List (α × Nat)) (key : α) :
    List (α × Nat) :=
  match counts with
  | [] => [(key, 1)]
  | (k, v) :: rest =>
    if k = key then (k, v + 1) :: rest else (k, v) :: bumpCount rest key

/-- Value a counter dictionary holds at a key, 0 when the key is absent. -/
def lookupCount {α : Type} [DecidableEq α] (counts : List (α × Nat)) (key : α) : Nat :=
  match counts with
  | [] => 0
  | (k, v) :: rest => if k = key then v else lookupCount rest key

/-- Object lookup stats.m[key] returning the value when the key is present. -/
def lookupKey {β : Type} (entries : List (String × β)) (key : String) : Option β :=
  match entries with
  | [] => none
  | (k, v) :: rest => if k = key then some v else lookupKey rest key

/-- Conditional counter increment for a loop body of the shape
if (key(f)) counts[key(f)]++ — the key function returns none exactly when the
source's truthiness guard rejects the record. -/
def optBump {α β : Type} [DecidableEq α] (key : β → Option α)
    (counts : List (α × Nat)) (x : β) : List (α × Nat) :=
  match key x with
  | some k => bumpCount counts k
  | none => counts

/-- Fallback duration binning of app.js lines 100-106 applied to an
already-filtered file list: each duration (0 when absent) is labelled and
counted. -/
def fallbackDurationBins (files : List MusicFile) : List (String × Nat) :=
  files.foldl (fun counts f => bumpCount counts (durationLabel ((f.duration).getD 0))) []

/-- Artist key of the fallback loop at app.js line 189: the artist field when
truthy (present and non-empty), none otherwise. -/
def artistKey (f : MusicFile) : Option String :=
  match f.artist with
  | some a => if a = "" then none else some a
  | none => none

/-- Accumulated artist counts of app.js line 189 over an already-filtered
file list. -/
def fallbackArtistCounts (files : List MusicFile) : List (String × Nat) :=
  files.foldl (optBump artistKey) []

/-- Fallback artist statistic of app.js lines 188-190: counts sorted by
descending count (comparator (a,b) => b[1]-a[1], a stable sort as ES2019
requires, modelled by stable insertion sort) and truncated to 20. -/
def fallbackTopArtists (files : List MusicFile) : List (String × Nat) :=
  (List.insertionSort (fun a b => b.2 ≤ a.2) (fallbackArtistCounts files)).take 20

/-- Year key of the added-timeline loop at app.js line 236: the calendar year
of mtime_epoch with an absent field treated as 0, kept only when truthy
(nonzero). -/
def addedYearKey (f : MusicFile) : Option Int :=
  let y := epochYear ((f.mtime_epoch).getD 0)
  if y = 0 then none else some y

/-- Accumulated per-year counts of the added timeline (app.js line 236) over
an already-filtered file list. -/
def addedYearCounts (files : List MusicFile) : List (Int × Nat) :=
  files.foldl (optBump addedYearKey) []

/-- Added-timeline entries of app.js line 237: per-year counts sorted
ascending by year (comparator (a,b) => a.year-b.year, stable sort). -/
def addedTimeline (files : List MusicFile) : List (Int × Nat) :=
  List.insertionSort (fun a b => a.1 ≤ b.1) (addedYearCounts files)

/-- Year key of the year-histogram loop at app.js line 219: the extractor's
result, kept only when truthy (non-null and nonzero). -/
def yearKey (f : MusicFile) : Option Int :=
  match getYearFromFile f with
  | some y => if y = 0 then none else some y
  | none => none

/-- Accumulated per-year counts of the year histogram (app.js line 219) over
an already-filtered file list. -/
def yearCountsOf (files : List MusicFile) : List (Int × Nat) :=
  files.foldl (optBump yearKey) []

/-- The aggregate statistics document (stats.json): every top-level key
optional, per the external-interface contract. Mappings are association
lists; list-valued keys keep their order. -/
structure Stats where
  genre_counts : Option (List (String × Nat)) := none
  artist_counts : Option (List (String × Nat)) := none
  top_artists_per_genre : Option (List (String × List (String × Nat))) := none
  duration_bins : Option (List (String × Nat)) := none
  per_genre_duration_bins : Option (List (String × List (String × Nat))) := none
  top_genres : Option (List (String × Nat)) := none
  genre_percentages : Option (List (String × Rat)) := none
deriving DecidableEq

/-- Bins renderDurationDistribution starts from (app.js lines 88-96): the
per-genre bins when the genre argument is truthy (present and non-empty, the
genre guard of the condition on line 91), the per_genre_duration_bins key is
present and holds that genre; otherwise the global duration_bins, or an empty
dictionary when that key is absent. -/
def chosenDurationBins (stats : Stats) (genre : Option String) : List (String × Nat) :=
  let bins := stats.duration_bins.getD []
  match genre with
  | some g =>
    if g = "" then bins
    else
      match stats.per_genre_duration_bins with
      | some pg =>
        match lookupKey pg g with
        | some b => b
        | none => bins
      | none => bins
  | none => bins

/-- Bins renderDurationDistribution ends up displaying (app.js lines 88-107):
the chosen bins, except that when the genre argument is truthy (present and
non-empty, the genre guard of the condition on line 99), a file list was
given and the chosen bins are empty, they are recomputed from the filtered
subset. -/
def durationBinsShown (stats : Stats) (genre : Option String)
    (files : Option (List MusicFile)) : List (String × Nat) :=
  let bins := chosenDurationBins stats genre
  match genre, files with
  | some g, some fs =>
    if g = "" then bins
    else if bins = [] then fallbackDurationBins (getFilteredFiles (some fs) (some g))
    else bins
  | _, _ => bins

/-- Year Extractor as the specification words it (section 4.2): scan the date
text for a 4-digit 19xx/20xx sequence; if no date match, derive the calendar
year from mtime_epoch whenever that field is present; absent only when
neither yields a value. Written for comparison with getYearFromFile. -/
def specYearOf (f : MusicFile) : Option Int :=
  match f.date with
  | some d =>
    match yearScan d.data with
    | some y => some (y : Int)
    | none => f.mtime_epoch.map epochYear
  | none => f.mtime_epoch.map epochYear

/-- Failure of a JS expression with an uncaught TypeError. -/
inductive JsError : Type
  | typeError : JsError
deriving DecidableEq

/-- Evaluation of stats.top_genres.slice(0,6) at app.js line 366: member
access on an absent key yields undefined, and .slice on undefined throws. -/
def radarTopGenres (stats : Stats) : Except JsError (List (String × Nat)) :=
  match stats.top_genres with
  | none => Except.error JsError.typeError
  | some l => Except.ok (l.take 6)

/-- Evaluation of the genre-bar data pipeline at app.js lines 149-151:
Object.entries(stats.genre_counts) throws on an absent key; otherwise the
entries are filtered of "unknown", sorted by descending count and cut to 20. -/
def genreBarEntries (stats : Stats) : Except JsError (List (String × Nat)) :=
  match stats.genre_counts with
  | none => Except.error JsError.typeError
  | some l =>
    Except.ok ((List.insertionSort (fun a b => b.2 ≤ a.2)
      (l.filter (fun p => !(jsToLower p.1 = "unknown")))).take 20)

/-! Helper lemmas about the counter dictionary: bumpCount increments exactly
the looked-up key, keys stay distinct, and values stay positive and equal to
the number of increments. -/

theorem lookupCount_bumpCount_self {α : Type} [DecidableEq α]
    (counts : List (α × Nat)) (k : α) :
    lookupCount (bumpCount counts k) k = lookupCount counts k + 1 := by
  induction counts with
  | nil => simp [bumpCount, lookupCount]
  | cons kv rest ih =>
    obtain ⟨k0, v0⟩ := kv
    by_cases h : k0 = k
    · subst h
      simp [bumpCount, lookupCount]
    · simp [bumpCount, lookupCount, h, ih]

theorem lookupCount_bumpCount_ne {α : Type} [DecidableEq α]
    (counts : List (α × Nat)) (k q : α) (hqk : q ≠ k) :
    lookupCount (bumpCount counts k) q = lookupCount counts q := by
  induction counts with
  | nil => simp [bumpCount, lookupCount, Ne.symm hqk]
  | cons kv rest ih =>
    obtain ⟨k0, v0⟩ := kv
    by_cases h : k0 = k
    · subst h
      simp [bumpCount, lookupCount, Ne.symm hqk]
    · simp [bumpCount, lookupCount, h, ih]

theorem lookupCount_foldl_bumpCount {α : Type} [DecidableEq α]
    (ks : List α) (counts : List (α × Nat)) (q : α) :
    lookupCount (ks.foldl bumpCount counts) q
      = lookupCount counts q + ks.countP (fun x => x = q) := by
  induction ks generalizing counts with
  | nil => simp
  | cons k ks ih =>
    simp only [List.foldl_cons, List.countP_cons, ih]
    by_cases h : k = q
    · subst h
      rw [lookupCount_bumpCount_self]
      simp
      omega
    · rw [lookupCount_bumpCount_ne _ _ _ (fun hh => h (Eq.symm hh))]
      simp [h]

theorem pos_of_mem_bumpCount {α : Type} [DecidableEq α]
    {counts : List (α × Nat)} {k : α}
    (hpos : ∀ kv ∈ counts, 0 < kv.2) :
    ∀ kv ∈ bumpCount counts k, 0 < kv.2 := by
  induction counts with
  | nil =>
    intro kv hm
    simp [bumpCount] at hm
    simp [hm]
  | cons kv0 rest ih =>
    obtain ⟨k0, v0⟩ := kv0
    intro kv hm
    by_cases h : k0 = k
    · subst h
      simp [bumpCount] at hm
      rcases hm with hm | hm
      · simp [hm]
      · exact hpos kv (List.mem_cons_of_mem _ hm)
    · simp [bumpCount, h] at hm
      rcases hm with hm | hm
      · exact hm ▸ hpos (k0, v0) (List.mem_cons_self _ _)
      · exact ih (fun kv hkv => hpos kv (List.mem_cons_of_mem _ hkv)) kv hm

theorem pos_of_mem_foldl_bumpCount {α : Type} [DecidableEq α]
    (ks : List α) :
    ∀ (counts : List (α × Nat)), (∀ kv ∈ counts, 0 < kv.2) →
      ∀ kv ∈ ks.foldl bumpCount counts, 0 < kv.2 := by
  induction ks with
  | nil => intro counts h kv hm; exact h kv hm
  | cons k ks ih =>
    intro counts h kv hm
    exact ih (bumpCount counts k) (pos_of_mem_bumpCount h) kv hm

theorem keys_bumpCount {α : Type} [DecidableEq α]
    (counts : List (α × Nat)) (k : α) :
    (bumpCount counts k).map Prod.fst
      = if k ∈ counts.map Prod.fst then counts.map Prod.fst
        else counts.map Prod.fst ++ [k] := by
  induction counts with
  | nil => simp [bumpCount]
  | cons kv rest ih =>
    obtain ⟨k0, v0⟩ := kv
    by_cases h0 : k0 = k
    · subst h0
      simp [bumpCount]
    · by_cases hmem : k ∈ rest.map Prod.fst <;>
        simp [bumpCount, h0, ih, hmem, Ne.symm h0]

theorem nodup_keys_bumpCount {α : Type} [DecidableEq α]
    {counts : List (α × Nat)} {k : α}
    (h : (counts.map Prod.fst).Nodup) :
    ((bumpCount counts k).map Prod.fst).Nodup := by
  rw [keys_bumpCount]
  by_cases hmem : k ∈ counts.map Prod.fst
  · simpa [hmem] using h
  · simp [hmem, List.nodup_append, h]

theorem nodup_keys_foldl_bumpCount {α : Type} [DecidableEq α]
    (ks : List α) :
    ∀ (counts : List (α × Nat)), (counts.map Prod.fst).Nodup →
      ((ks.foldl bumpCount counts).map Prod.fst).Nodup := by
  induction ks with
  | nil => intro counts h; exact h
  | cons k ks ih =>
    intro counts h
    exact ih (bumpCount counts k) (nodup_keys_bumpCount h)

theorem lookupCount_eq_of_mem {α : Type} [DecidableEq α]
    {counts : List (α × Nat)} {k : α} {v : Nat}
    (hnd : (counts.map Prod.fst).Nodup) (hm : (k, v) ∈ counts) :
    lookupCount counts k = v := by
  induction counts with
  | nil => simp at hm
  | cons kv rest ih =>
    obtain ⟨k0, v0⟩ := kv
    simp only [List.map_cons, List.nodup_cons] at hnd
    rcases List.mem_cons.mp hm with hh | hh
    · have hk : k = k0 := congrArg Prod.fst hh
      have hv : v = v0 := congrArg Prod.snd hh
      subst hk
      simp [lookupCount, hv]
    · have hk0 : k0 ≠ k := by
        intro hc
        subst hc
        exact hnd.1 (List.mem_map.mpr ⟨(k0, v), hh, rfl⟩)
      simp [lookupCount, hk0, ih hnd.2 hh]

theorem mem_of_lookupCount_ne_zero {α : Type} [DecidableEq α]
    {counts : List (α × Nat)} {k : α}
    (h : lookupCount counts k ≠ 0) :
    (k, lookupCount counts k) ∈ counts := by
  induction counts with
  | nil => simp [lookupCount] at h
  | cons kv rest ih =>
    obtain ⟨k0, v0⟩ := kv
    by_cases h0 : k0 = k
    · subst h0
      simp [lookupCount]
    · simp only [lookupCount, if_neg h0] at h ⊢
      exact List.mem_cons_of_mem _ (ih h)

theorem foldl_optBump_eq {α β : Type} [DecidableEq α]
    (key : β → Option α) (files : List β) :
    ∀ counts, files.foldl (optBump key) counts
      = (files.filterMap key).foldl bumpCount counts := by
  induction files with
  | nil => intro counts; simp
  | cons f fs ih =>
    intro counts
    cases hk : key f <;> simp [optBump, hk, List.filterMap_cons, ih]

theorem countP_filterMap_eq_some {α β : Type} [DecidableEq α] [DecidableEq β]
    (key : β → Option α) (l : List β) (k : α) :
    (l.filterMap key).countP (fun x => x = k)
      = l.countP (fun f => key f = some k) := by
  induction l with
  | nil => rfl
  | cons f fs ih =>
    cases hk : key f <;>
      simp [List.filterMap_cons, hk, List.countP_cons, ih]

/-- Lookup in the result of a conditional counting loop equals the number of
records the key function accepts with that key. -/
theorem lookup_optBump_foldl {α β : Type} [DecidableEq α] [DecidableEq β]
    (key : β → Option α) (files : List β) (k : α) :
    lookupCount (files.foldl (optBump key) []) k
      = files.countP (fun f => key f = some k) := by
  rw [foldl_optBump_eq, lookupCount_foldl_bumpCount, countP_filterMap_eq_some]
  simp [lookupCount]

/-- Every entry of a counting loop's result is positive and counts exactly
the records its key accepts with that key. -/
theorem entry_optBump_foldl {α β : Type} [DecidableEq α] [DecidableEq β]
    (key : β → Option α) (files : List β) :
    ∀ kv ∈ files.foldl (optBump key) [],
      0 < kv.2 ∧ kv.2 = files.countP (fun f => key f = some kv.1) := by
  intro kv hm
  rw [foldl_optBump_eq] at hm
  have hnd := nodup_keys_foldl_bumpCount (files.filterMap key) [] (by simp)
  obtain ⟨k, v⟩ := kv
  have hl := lookupCount_eq_of_mem hnd hm
  refine ⟨pos_of_mem_foldl_bumpCount _ [] (by simp) (k, v) hm, ?_⟩
  have h2 : lookupCount (List.foldl bumpCount [] (files.filterMap key)) k
      = files.countP (fun f => key f = some k) := by
    rw [← foldl_optBump_eq]
    exact lookup_optBump_foldl key files k
  exact hl.symm.trans h2

/-- A key some record is accepted with appears in the counting loop's result,
with the full count as its value. -/
theorem mem_optBump_foldl_of_countP {α β : Type} [DecidableEq α] [DecidableEq β]
    (key : β → Option α) (files : List β) (k : α)
    (h : files.countP (fun f => key f = some k) ≠ 0) :
    (k, files.countP (fun f => key f = some k)) ∈ files.foldl (optBump key) [] := by
  have hl := lookup_optBump_foldl key files k
  rw [← hl] at h ⊢
  exact mem_of_lookupCount_ne_zero h

/-! Filter Engine and Genre Matcher. -/

theorem getFilteredFiles_default (fs : List MusicFile) :
    getFilteredFiles (some fs) (some "__all__") = fs.filter defaultKeep := by
  simp [getFilteredFiles]

theorem defaultKeep_eq_true_iff (f : MusicFile) :
    defaultKeep f = true ↔
      ∃ g, f.genre = some g ∧ ¬ g = "" ∧
        ∀ p ∈ genreParts g, ¬ jsToLower p = "unknown" := by
  cases hg : f.genre with
  | none => simp [defaultKeep, hg]
  | some g =>
    by_cases h0 : g = ""
    · subst h0
      simp [defaultKeep, hg]
    · simp [defaultKeep, hg, h0, List.any_eq_true]

/-- C1: with the no-filter sentinel selection, getFilteredFiles returns
exactly the files whose genre field is present and non-empty and none of
whose delimiter-split, trimmed genre parts case-insensitively equals
"unknown"; files with empty or absent genre are excluded. -/
theorem filteredFiles_default_spec (fs : List MusicFile) (f : MusicFile) :
    f ∈ getFilteredFiles (some fs) (some "__all__") ↔
      f ∈ fs ∧ ∃ g, f.genre = some g ∧ ¬ g = "" ∧
        ∀ p ∈ genreParts g, ¬ jsToLower p = "unknown" := by
  rw [getFilteredFiles_default, List.mem_filter, defaultKeep_eq_true_iff]

/-- C2: for a specific (non-sentinel, non-falsy) selection g, getFilteredFiles
is exactly the filter of the Genre Matcher over the file list, an
order-preserving subsequence of it; the unknown-exclusion of the default view
does not apply, as the matcher alone decides membership. -/
theorem filteredFiles_genre_spec (fs : List MusicFile) (g : String)
    (h1 : ¬ g = "") (h2 : ¬ g = "__all__") :
    getFilteredFiles (some fs) (some g) = fs.filter (fun f => fileHasGenre f g)
    ∧ (getFilteredFiles (some fs) (some g)).Sublist fs
    ∧ ∀ f, f ∈ getFilteredFiles (some fs) (some g) ↔ f ∈ fs ∧ fileHasGenre f g = true := by
  have he : getFilteredFiles (some fs) (some g) = fs.filter (fun f => fileHasGenre f g) := by
    simp [getFilteredFiles, h1, h2]
  refine ⟨he, ?_, ?_⟩
  · rw [he]
    exact List.filter_sublist fs
  · intro f
    rw [he]
    simp [List.mem_filter]

/-- C2 witness: a file whose genre is literally "Unknown" is returned when
the selection is "Unknown", at a concrete input. -/
theorem filteredFiles_genre_spec_check :
    getFilteredFiles (some [({ genre := some "Unknown" } : MusicFile)]) (some "Unknown")
      = List.filter (fun f => fileHasGenre f "Unknown") [{ genre := some "Unknown" }]
    ∧ getFilteredFiles (some [({ genre := some "Unknown" } : MusicFile)]) (some "Unknown")
      = [{ genre := some "Unknown" }] :=
  ⟨(filteredFiles_genre_spec [{ genre := some "Unknown" }] "Unknown"
      (by decide) (by decide)).1, by decide⟩

/-- C3: the Genre Matcher accepts a file for a target genre exactly when some
delimiter-split, trimmed, non-empty part of the genre field equals the whole
target case-insensitively; a file with no genre field never matches. -/
theorem fileHasGenre_spec (f : MusicFile) (t : String) :
    (fileHasGenre f t = true ↔
      ∃ g, f.genre = some g ∧ ∃ p ∈ genreParts g, jsToLower p = jsToLower t)
    ∧ (f.genre = none → fileHasGenre f t = false) := by
  constructor
  · cases hg : f.genre with
    | none => simp [fileHasGenre, hg]
    | some g =>
      by_cases h0 : g = ""
      · subst h0
        have hp : genreParts "" = [] := by decide
        simp [fileHasGenre, hg, hp]
      · simp [fileHasGenre, hg, h0, List.any_eq_true]
  · intro hg
    simp [fileHasGenre, hg]

/-- C10: a falsy selection — null/undefined (none) or the empty string — is
routed to the same default branch as the sentinel, with the unknown-genre
exclusion, rather than matched as a genre name. -/
theorem filteredFiles_falsy_selection (files : Option (List MusicFile)) :
    getFilteredFiles files none = getFilteredFiles files (some "__all__")
    ∧ getFilteredFiles files (some "") = getFilteredFiles files (some "__all__")
    ∧ getFilteredFiles files (some "__all__") = (files.getD []).filter defaultKeep := by
  cases files <;> simp [getFilteredFiles]

theorem entry_foldl_bumpCount {α : Type} [DecidableEq α] (ks : List α) :
    ∀ kv ∈ ks.foldl bumpCount [], 0 < kv.2 ∧ kv.2 = ks.countP (fun x => x = kv.1) := by
  intro kv hm
  have hnd := nodup_keys_foldl_bumpCount ks [] (by simp)
  obtain ⟨k, v⟩ := kv
  have hl := lookupCount_eq_of_mem hnd hm
  refine ⟨pos_of_mem_foldl_bumpCount ks [] (by simp) (k, v) hm, ?_⟩
  rw [← hl, lookupCount_foldl_bumpCount]
  simp [lookupCount]

theorem mem_foldl_bumpCount_of_countP {α : Type} [DecidableEq α]
    (ks : List α) (k : α) (h : ks.countP (fun x => x = k) ≠ 0) :
    (k, ks.countP (fun x => x = k)) ∈ ks.foldl bumpCount [] := by
  have hl : lookupCount (ks.foldl bumpCount []) k = ks.countP (fun x => x = k) := by
    rw [lookupCount_foldl_bumpCount]
    simp [lookupCount]
  rw [← hl] at h ⊢
  exact mem_of_lookupCount_ne_zero h

/-! Year Extractor. -/

theorem yearKey_eq_some {f : MusicFile} {y : Int} (h : yearKey f = some y) :
    getYearFromFile f = some y ∧ ¬ y = 0 := by
  unfold yearKey at h
  cases hyg : getYearFromFile f with
  | none =>
    rw [hyg] at h
    simp at h
  | some y0 =>
    rw [hyg] at h
    by_cases h0 : y0 = 0
    · simp [h0] at h
    · simp [h0] at h
      subst h
      exact ⟨rfl, h0⟩

/-- C4 (amended): the Year Extractor takes the first 19xx/20xx 4-digit
sequence of the date text when one exists; with no date match it derives the
calendar year from a present and nonzero mtime_epoch; with no date match and
an absent or zero mtime_epoch it yields absent; and only files whose
extraction yields a value are counted in the year aggregation. -/
theorem yearOf_spec (f : MusicFile) :
    (∀ d y, f.date = some d → yearScan d.data = some y →
      getYearFromFile f = some (y : Int))
    ∧ ((∀ d, f.date = some d → yearScan d.data = none) →
        ∀ e, f.mtime_epoch = some e → ¬ e = 0 →
          getYearFromFile f = some (epochYear e))
    ∧ ((∀ d, f.date = some d → yearScan d.data = none) →
        (f.mtime_epoch = none ∨ f.mtime_epoch = some 0) →
          getYearFromFile f = none)
    ∧ (∀ (files : List MusicFile) (y : Int),
        ¬ lookupCount (yearCountsOf files) y = 0 →
          ∃ g ∈ files, getYearFromFile g = some y) := by
  refine ⟨?_, ?_, ?_, ?_⟩
  · intro d y hd hscan
    by_cases h0 : d = ""
    · subst h0
      simp [yearScan] at hscan
    · simp [getYearFromFile, hd, h0, hscan]
  · intro hnone e he he0
    cases hd : f.date with
    | none => simp [getYearFromFile, hd, he, he0]
    | some d => simp [getYearFromFile, hd, he, he0, hnone d hd]
  · intro hnone hm
    cases hd : f.date with
    | none =>
      rcases hm with hm | hm <;> simp [getYearFromFile, hd, hm]
    | some d =>
      rcases hm with hm | hm <;> simp [getYearFromFile, hd, hm, hnone d hd]
  · intro files y h
    have hl : lookupCount (yearCountsOf files) y
        = files.countP (fun g => yearKey g = some y) :=
      lookup_optBump_foldl yearKey files y
    rw [hl] at h
    obtain ⟨g, hg, hp⟩ := List.countP_pos_iff.mp (Nat.pos_of_ne_zero h)
    simp only [decide_eq_true_eq] at hp
    exact ⟨g, hg, (yearKey_eq_some hp).1⟩

/-- C4 counterexample: a file with no date and a present but zero mtime_epoch.
The specification's Year Extractor derives the epoch year 1970 from it, while
the code's falsiness test on mtime_epoch returns null. -/
theorem yearOf_zero_mtime_cex :
    specYearOf { mtime_epoch := some 0 } = some 1970
    ∧ getYearFromFile { mtime_epoch := some 0 } = none := by
  constructor <;> decide

/-! Derived Aggregator: duration bins. -/

theorem fallbackDurationBins_as_map (files : List MusicFile) :
    fallbackDurationBins files
      = (files.map (fun f => durationLabel ((f.duration).getD 0))).foldl bumpCount [] := by
  rw [List.foldl_map]
  rfl

theorem lookup_fallbackDurationBins (files : List MusicFile) (l : String) :
    lookupCount (fallbackDurationBins files) l
      = files.countP (fun f => durationLabel ((f.duration).getD 0) = l) := by
  rw [fallbackDurationBins_as_map, lookupCount_foldl_bumpCount, List.countP_map]
  simp [lookupCount]
  rfl

/-- C5: the fallback duration binning assigns every duration (0 when absent)
to exactly one of the five ordered labels with the stated integer ranges, the
boundary values 120 and 720 landing in 2-4m and 12m+ respectively; entry
counts accumulate per label, and a label appears in the result exactly when
its count is positive. -/
theorem durationBins_fallback_spec (files : List MusicFile) :
    (∀ d : Int, 0 ≤ d →
      ((durationLabel d = "<2m" ↔ d < 120)
       ∧ (durationLabel d = "2-4m" ↔ 120 ≤ d ∧ d < 240)
       ∧ (durationLabel d = "4-6m" ↔ 240 ≤ d ∧ d < 360)
       ∧ (durationLabel d = "6-12m" ↔ 360 ≤ d ∧ d < 720)
       ∧ (durationLabel d = "12m+" ↔ 720 ≤ d)))
    ∧ (∀ d : Int, durationLabel d ∈ ["<2m", "2-4m", "4-6m", "6-12m", "12m+"])
    ∧ durationLabel 120 = "2-4m"
    ∧ durationLabel 720 = "12m+"
    ∧ (∀ l : String, lookupCount (fallbackDurationBins files) l
        = files.countP (fun f => durationLabel ((f.duration).getD 0) = l))
    ∧ (∀ kv ∈ fallbackDurationBins files,
        0 < kv.2 ∧ kv.2 = files.countP (fun f => durationLabel ((f.duration).getD 0) = kv.1))
    ∧ (∀ l : String,
        ¬ files.countP (fun f => durationLabel ((f.duration).getD 0) = l) = 0 →
          (l, files.countP (fun f => durationLabel ((f.duration).getD 0) = l))
            ∈ fallbackDurationBins files) := by
  refine ⟨?_, ?_, by decide, by decide, lookup_fallbackDurationBins files, ?_, ?_⟩
  · intro d hd
    unfold durationLabel
    split_ifs with h1 h2 h3 h4 <;>
      refine ⟨?_, ?_, ?_, ?_, ?_⟩ <;> simp <;> omega
  · intro d
    unfold durationLabel
    split_ifs <;> simp
  · intro kv hm
    rw [fallbackDurationBins_as_map] at hm
    have h := entry_foldl_bumpCount _ kv hm
    refine ⟨h.1, ?_⟩
    rw [h.2, List.countP_map]
    rfl
  · intro l h
    have hc : (files.map (fun f => durationLabel ((f.duration).getD 0))).countP
        (fun x => x = l) = files.countP (fun f => durationLabel ((f.duration).getD 0) = l) := by
      rw [List.countP_map]
      rfl
    rw [fallbackDurationBins_as_map, ← hc]
    rw [← hc] at h
    exact mem_foldl_bumpCount_of_countP _ l h

/-! Derived Aggregator: artist counts. -/

theorem artistKey_eq_some_iff (f : MusicFile) (a : String) (ha : ¬ a = "") :
    artistKey f = some a ↔ f.artist = some a := by
  cases hf : f.artist with
  | none => simp [artistKey, hf]
  | some b =>
    by_cases hb : b = ""
    · subst hb
      simp [artistKey, hf]
      exact fun h => ha (Eq.symm h)
    · simp [artistKey, hf, hb]

theorem artistKey_ne_some_empty (f : MusicFile) : ¬ artistKey f = some "" := by
  cases hf : f.artist with
  | none => simp [artistKey, hf]
  | some b =>
    by_cases hb : b = ""
    · simp [artistKey, hf, hb]
    · simp [artistKey, hf, hb]

theorem lookup_fallbackArtistCounts (files : List MusicFile) (a : String)
    (ha : ¬ a = "") :
    lookupCount (fallbackArtistCounts files) a
      = files.countP (fun f => f.artist = some a) := by
  have h := lookup_optBump_foldl artistKey files a
  rw [show fallbackArtistCounts files = files.foldl (optBump artistKey) [] from rfl, h]
  exact List.countP_congr (fun f _ => by simp [artistKey_eq_some_iff f a ha])

/-- C8: the fallback artist statistic counts occurrences of each non-empty
artist field over the filtered subset, is sorted descending by count
(so an artist with a strictly smaller count always ranks after the others),
and is truncated to at most 20 entries; each listed entry carries a positive
count equal to the number of files with that artist. -/
theorem topArtists_fallback_spec (files : List MusicFile) :
    (∀ a : String, ¬ a = "" →
      lookupCount (fallbackArtistCounts files) a
        = files.countP (fun f => f.artist = some a))
    ∧ List.Pairwise (fun x y : String × Nat => y.2 ≤ x.2) (fallbackTopArtists files)
    ∧ (fallbackTopArtists files).length ≤ 20
    ∧ (∀ kv ∈ fallbackTopArtists files,
        ¬ kv.1 = "" ∧ 0 < kv.2
        ∧ kv.2 = files.countP (fun f => f.artist = some kv.1)) := by
  refine ⟨lookup_fallbackArtistCounts files, ?_, ?_, ?_⟩
  · haveI : IsTotal (String × Nat) (fun x y => y.2 ≤ x.2) :=
      ⟨fun a b => Nat.le_total b.2 a.2⟩
    haveI : IsTrans (String × Nat) (fun x y => y.2 ≤ x.2) :=
      ⟨fun a b c h1 h2 => Nat.le_trans h2 h1⟩
    exact List.Pairwise.sublist (List.take_sublist 20 _)
      (List.sorted_insertionSort _ (fallbackArtistCounts files))
  · exact List.length_take_le 20 _
  · intro kv hm
    have hmem : kv ∈ fallbackArtistCounts files :=
      (List.mem_insertionSort _).mp (List.take_subset 20 _ hm)
    have h := entry_optBump_foldl artistKey files kv hmem
    have hne : ¬ kv.1 = "" := by
      intro h0
      have hz : files.countP (fun f => artistKey f = some kv.1) = 0 :=
        List.countP_eq_zero.mpr (fun f _ => by
          simp only [decide_eq_true_eq, h0]
          exact artistKey_ne_some_empty f)
      rw [hz] at h
      exact Nat.lt_irrefl 0 (h.2 ▸ h.1)
    refine ⟨hne, h.1, ?_⟩
    rw [h.2]
    exact List.countP_congr (fun f _ => by simp [artistKey_eq_some_iff f kv.1 hne])

/-! Derived Aggregator: added timeline. -/

theorem addedYearKey_eq_some_iff (f : MusicFile) (y : Int) (hy : ¬ y = 0) :
    addedYearKey f = some y ↔ epochYear ((f.mtime_epoch).getD 0) = y := by
  unfold addedYearKey
  by_cases h0 : epochYear ((f.mtime_epoch).getD 0) = 0
  · simp [h0]
    exact fun h => hy (Eq.symm (h0 ▸ h))
  · simp [h0]

/-- C9: the added-timeline statistic counts filtered files by the calendar
year of mtime_epoch with an absent field treated as 0 (such files land in the
epoch year 1970 and are counted, not dropped), and the per-year entries are
sorted ascending by year; every listed entry has a positive count. -/
theorem addedTimeline_spec (files : List MusicFile) :
    (∀ y : Int, ¬ y = 0 →
      lookupCount (addedYearCounts files) y
        = files.countP (fun f => epochYear ((f.mtime_epoch).getD 0) = y))
    ∧ (∀ f ∈ files, f.mtime_epoch = none →
        epochYear ((f.mtime_epoch).getD 0) = 1970)
    ∧ List.Pairwise (fun x y : Int × Nat => x.1 ≤ y.1) (addedTimeline files)
    ∧ (∀ kv : Int × Nat, kv ∈ addedTimeline files ↔ kv ∈ addedYearCounts files)
    ∧ (∀ kv ∈ addedTimeline files, 0 < kv.2) := by
  refine ⟨?_, ?_, ?_, ?_, ?_⟩
  · intro y hy
    have h := lookup_optBump_foldl addedYearKey files y
    rw [show addedYearCounts files = files.foldl (optBump addedYearKey) [] from rfl, h]
    exact List.countP_congr (fun f _ => by simp [addedYearKey_eq_some_iff f y hy])
  · intro f _ hm
    rw [hm]
    decide
  · haveI : IsTotal (Int × Nat) (fun x y => x.1 ≤ y.1) :=
      ⟨fun a b => Int.le_total a.1 b.1⟩
    haveI : IsTrans (Int × Nat) (fun x y => x.1 ≤ y.1) :=
      ⟨fun a b c h1 h2 => Int.le_trans h1 h2⟩
    exact List.sorted_insertionSort _ (addedYearCounts files)
  · intro kv
    exact List.mem_insertionSort _
  · intro kv hm
    have hmem : kv ∈ addedYearCounts files := (List.mem_insertionSort _).mp hm
    exact (entry_optBump_foldl addedYearKey files kv hmem).1

/-! Duration view: which bins are shown, and when the fallback runs. -/

/-- C6 (amended): with a truthy (non-empty) genre selected and files
provided, the fallback recomputation from the filtered subset runs exactly
when the bins chosen from the aggregates are empty, where the chosen bins are
the per-genre bins when the per_genre_duration_bins key is present and holds
the genre, and the global duration_bins (or nothing) otherwise; in
particular, per-genre bins absent but non-empty global bins present means the
global bins are shown, not the fallback; and with a falsy (empty-string)
genre the guards fail, so the global bins are used and the fallback never
runs. -/
theorem durationBins_fallback_trigger (stats : Stats) (g : String)
    (fs : List MusicFile) :
    (¬ g = "" → chosenDurationBins stats (some g) = [] →
      durationBinsShown stats (some g) (some fs)
        = fallbackDurationBins (getFilteredFiles (some fs) (some g)))
    ∧ (¬ g = "" → ¬ chosenDurationBins stats (some g) = [] →
      durationBinsShown stats (some g) (some fs) = chosenDurationBins stats (some g))
    ∧ (g = "" →
      chosenDurationBins stats (some g) = stats.duration_bins.getD []
      ∧ durationBinsShown stats (some g) (some fs) = stats.duration_bins.getD [])
    ∧ (¬ g = "" → stats.per_genre_duration_bins = none →
      chosenDurationBins stats (some g) = stats.duration_bins.getD [])
    ∧ (∀ pg b, ¬ g = "" → stats.per_genre_duration_bins = some pg →
      lookupKey pg g = some b →
      chosenDurationBins stats (some g) = b)
    ∧ (∀ pg, ¬ g = "" → stats.per_genre_duration_bins = some pg →
      lookupKey pg g = none →
      chosenDurationBins stats (some g) = stats.duration_bins.getD []) := by
  refine ⟨?_, ?_, ?_, ?_, ?_, ?_⟩
  · intro hg h
    simp [durationBinsShown, hg, h]
  · intro hg h
    simp [durationBinsShown, hg, h]
  · intro hg
    subst hg
    refine ⟨by simp [chosenDurationBins], ?_⟩
    simp [durationBinsShown, chosenDurationBins]
  · intro hg h
    simp [chosenDurationBins, hg, h]
  · intro pg b hg hpg hb
    simp [chosenDurationBins, hg, hpg, hb]
  · intro pg hg hpg hb
    simp [chosenDurationBins, hg, hpg, hb]

/-- C6 counterexample: per-genre duration bins for the selected genre are
absent, yet the non-empty global duration_bins are shown instead of the
fallback computed from the filtered subset. -/
theorem durationBins_fallback_cex :
    ({ duration_bins := some [("<2m", 5)] } : Stats).per_genre_duration_bins = none
    ∧ durationBinsShown { duration_bins := some [("<2m", 5)] } (some "Rock")
        (some [{ genre := some "Rock", duration := some 300 }]) = [("<2m", 5)]
    ∧ fallbackDurationBins (getFilteredFiles
        (some [{ genre := some "Rock", duration := some 300 }]) (some "Rock"))
        = [("4-6m", 1)]
    ∧ ¬ ([("<2m", 5)] : List (String × Nat)) = [("4-6m", 1)] :=
  ⟨rfl, by decide, by decide, by decide⟩

/-! Missing aggregate keys. -/

/-- C7 evaluation: member access on the absent top_genres key (radar chart)
and on the absent genre_counts key (genre bar chart) throws a TypeError,
against the error-handling design that calls such absences non-fatal; with
the keys present the same pipelines succeed. -/
theorem missing_aggregate_keys_crash :
    radarTopGenres { top_genres := none } = Except.error JsError.typeError
    ∧ genreBarEntries { genre_counts := none } = Except.error JsError.typeError
    ∧ radarTopGenres { top_genres := some [("Rock", 3)] } = Except.ok [("Rock", 3)]
    ∧ genreBarEntries { genre_counts := some [("Rock", 3), ("Unknown", 9), ("Pop", 7)] }
        = Except.ok [("Pop", 7), ("Rock", 3)] :=
  ⟨rfl, rfl, rfl, rfl⟩

end MLV
